import Mathlib

/-!
# Sentry tunnel: the request handler of `main.go`

A shallow embedding of `handleRequest` (src/main.go, lines 20-99) and of the
comparison the tests make (`testBody`, src/main_test.go, lines 37-48).

Go strings and byte slices are sequences of bytes; here they are lists of
characters, one character a byte.  Every string operation the handler uses
(splitting on a one-byte separator, trimming one byte from both ends,
concatenation, equality) acts element by element, so the embedding is the same
function on such lists.

The handler calls four operations of Go's standard library whose code is not
part of this repository: `json.Unmarshal`, `url.Parse`, `http.NewRequest` and
`(*http.Client).Do`.  The first, second and fourth are parameters of the
embedding (`Lib`), so that every theorem holds whatever they return;
`http.NewRequest` is built from `url.Parse` the way net/http builds it.
`(*url.URL).Hostname`, a pure function of the `Host` field, is embedded in full.
-/

namespace SentryTunnel

/-- A Go `string` or `[]byte`: a sequence of bytes, one `Char` each. -/
abbrev Str := List Char

/-! ## The string helpers of Go's library that the handler uses -/

/-- Go `strings.Split(s, sep)` for a one-byte separator: the pieces of `s`
between the occurrences of `sep`; never an empty slice. -/
def Split : Str → Char → List Str
  | [], _ => [[]]
  | c :: cs, sep =>
    if c = sep then [] :: Split cs sep
    else
      match Split cs sep with
      | [] => [[c]]
      | l :: ls => (c :: l) :: ls

/-- Go `strings.TrimLeft(s, cutset)` for a one-byte cutset. -/
def TrimLeft (s : Str) (c : Char) : Str :=
  s.dropWhile (fun x => x == c)

/-- Go `strings.TrimRight(s, cutset)` for a one-byte cutset. -/
def TrimRight (s : Str) (c : Char) : Str :=
  (s.reverse.dropWhile (fun x => x == c)).reverse

/-- Go `strings.Trim(s, cutset)` for a one-byte cutset: `s` without its
leading and trailing occurrences of that byte. -/
def Trim (s : Str) (c : Char) : Str :=
  TrimLeft (TrimRight s c) c

/-- Go `strings.TrimRightFunc(s, f)`: `s` without its longest suffix of
characters satisfying `f`. -/
def TrimRightFunc (s : Str) (f : Char → Bool) : Str :=
  (s.reverse.dropWhile f).reverse

/-- Go `strings.LastIndexByte(s, c)`; `none` stands for Go's `-1`. -/
def LastIndexByte : Str → Char → Option Nat
  | [], _ => none
  | x :: xs, c =>
    match LastIndexByte xs c with
    | some i => some (i + 1)
    | none => if x = c then some 0 else none

/-- Go `strings.HasPrefix(s, p)` for a one-byte `p`. -/
def HasPrefix (s : Str) (c : Char) : Bool :=
  match s with
  | [] => false
  | x :: _ => x == c

/-- Go `strings.HasSuffix(s, p)` for a one-byte `p`. -/
def HasSuffix (s : Str) (c : Char) : Bool :=
  match s.getLast? with
  | none => false
  | some x => x == c

/-! ## The data of the handler -/

/-- The type `SentryHeader` of main.go, line 16. -/
structure SentryHeader where
  DSN : Str
deriving DecidableEq, Repr

/-- The fields of Go's `url.URL` that the handler reads. -/
structure URL where
  Scheme : Str
  Host : Str
  Path : Str
deriving DecidableEq, Repr

/-- Go net/url `validOptionalPort`: the empty string, or a colon followed by
decimal digits only. -/
def validOptionalPort (port : Str) : Bool :=
  match port with
  | [] => true
  | p :: rest => p == ':' && rest.all (fun b => decide ('0' ≤ b) && decide (b ≤ '9'))

/-- Go net/url `splitHostPort`: host and port of a `Host` field; a port is
split off only when it is numeric, and the square brackets of an IPv6 literal
are removed from the host. -/
def splitHostPort (hostPort : Str) : Str × Str :=
  let hp : Str × Str :=
    match LastIndexByte hostPort ':' with
    | some colon =>
      if validOptionalPort (hostPort.drop colon) then
        (hostPort.take colon, hostPort.drop (colon + 1))
      else (hostPort, [])
    | none => (hostPort, [])
  if HasPrefix hp.1 '[' && HasSuffix hp.1 ']' then
    ((hp.1.drop 1).take (hp.1.length - 2), hp.2)
  else hp

/-- Go `(*url.URL).Hostname()`: `u.Host` without a valid port and without the
square brackets. -/
def URL.Hostname (u : URL) : Str :=
  (splitHostPort u.Host).1

/-- What the handler has written to its `http.ResponseWriter`: the status code
`WriteHeader` has taken and the bytes written after it.  The code is 0 as long
as no header is written, as in net/http. -/
structure Response where
  StatusCode : Int
  Body : Str
deriving DecidableEq, Repr

/-- The response to which nothing has been written: no status code, no bytes. -/
def nothingWritten : Response :=
  { StatusCode := 0, Body := [] }

/-- Go net/http `checkWriteHeaderCode`, which `WriteHeader` calls first, in the
server's writer and in `httptest.ResponseRecorder` alike: it panics unless the
code has three digits.  `true` stands for the panic. -/
def checkWriteHeaderCode (code : Int) : Bool :=
  decide (code < 100) || decide (code > 999)

/-- Go `http.Error(w, msg, code)`: the status code, then the message and a
line feed (`fmt.Fprintln`). -/
def Error (msg : Str) (code : Int) : Response :=
  { StatusCode := code, Body := msg ++ ['\n'] }

/-- The inbound request as the handler sees it: its method, and its body,
which is `nil` (`none`) or a reader; `io.ReadAll` on the reader fails with an
error or gives the content. -/
structure Request where
  Method : Str
  Body : Option (Except Str Str)

/-- The two environment variables the handler reads with `os.Getenv`; unset
is the empty string. -/
structure Env where
  SENTRY_HOST : Str
  SENTRY_PROJECT_IDS : Str

/-- The request `http.NewRequest(method, url, body)` creates. -/
structure OutRequest where
  Method : Str
  URL : Str
  Body : Str
deriving DecidableEq, Repr

/-- The answer of the upstream as `client.Do` returns it: the status code, the
bytes its body delivers, the error the body ends with when the copy fails, and
the error of `Body.Close()`. -/
structure UpstreamResponse where
  StatusCode : Int
  Body : Str
  ReadErr : Option Str
  CloseErr : Option Str
deriving DecidableEq, Repr

/-- The standard-library operations the handler depends on.
`Unmarshal firstLine` is `json.Unmarshal([]byte(firstLine), &header)` on a
zero `SentryHeader`: the error's text, or the header after decoding.
`Parse` is `url.Parse`.  `Do` is `(*http.Client).Do`: a transport error's text,
or the upstream's response. -/
structure Lib where
  Unmarshal : Str → Except Str SentryHeader
  Parse : Str → Except Str URL
  Do : OutRequest → Except Str UpstreamResponse

/-- Go `http.NewRequest(method, url, body)` for a valid method: it fails
exactly when `url.Parse` rejects the URL. -/
def NewRequest (lib : Lib) (method url body : Str) : Except Str OutRequest :=
  match lib.Parse url with
  | .error e => .error e
  | .ok _ => .ok { Method := method, URL := url, Body := body }

/-- The place where a call of `handleRequest` ended: one of its returns, in
source order (lines 28, 33, 39, 48, 54, 60, 65, 70, 78, 86, 99), or the panic
of `w.WriteHeader` at line 95. -/
inductive Exit where
  | methodNotAllowed
  | bodyMissing
  | readFailed
  | invalidHeader
  | invalidDSN
  | emptyProject
  | invalidHost
  | invalidProject
  | createFailed
  | tunnelFailed
  | proxied
  | writeHeaderPanic
deriving DecidableEq, Repr

/-- All a call of `handleRequest` does: where it ended, what it wrote to the
caller, the requests it passed to `client.Do`, and its log lines. -/
structure Outcome where
  exit : Exit
  response : Response
  outbound : List OutRequest
  log : List Str
deriving DecidableEq, Repr

/-- A return after `http.Error(w, msg, code)` before any outbound call. -/
def reject (e : Exit) (msg : Str) (code : Int) : Outcome :=
  { exit := e, response := Error msg code, outbound := [], log := [] }

/-- Go `http.MethodPost`. -/
def MethodPost : Str := "POST".toList

/-- The log line of the deferred function of lines 88-93: a failed `Close`.
It runs at every end of the call after line 87, a panic included. -/
def closeLog (resp : UpstreamResponse) : List Str :=
  match resp.CloseErr with
  | some e => ["Error closing body: ".toList ++ e]
  | none => []

/-- The log lines of lines 88-98: a failed copy of the body, then a failed
`Close` (deferred). -/
def copyLog (resp : UpstreamResponse) : List Str :=
  (match resp.ReadErr with
    | some e => ["Error copying response body: ".toList ++ e]
    | none => []) ++ closeLog resp

/-- The variable `firstLine` of main.go, line 43: element 0 of
`strings.Split(content, "\n")`. -/
def firstLine (content : Str) : Str :=
  (Split content '\n').headD []

/-- The variable `projectID` of main.go, line 57: `strings.Trim(dsn.Path, "/")`. -/
def projectID (dsn : URL) : Str :=
  Trim dsn.Path '/'

/-- The variable `upstreamSentryURL` of main.go, line 73:
`fmt.Sprintf("%s://%s/api/%s/envelope/", dsn.Scheme, dsn.Host, projectID)`. -/
def upstreamSentryURL (dsn : URL) : Str :=
  dsn.Scheme ++ "://".toList ++ dsn.Host ++ "/api/".toList ++ projectID dsn ++
    "/envelope/".toList

/-- The function `handleRequest` of main.go, lines 20-99. -/
def handleRequest (lib : Lib) (env : Env) (r : Request) : Outcome :=
  let sentryHost := env.SENTRY_HOST
  let sentryProjectIDs := env.SENTRY_PROJECT_IDS
  if r.Method ≠ MethodPost then
    reject .methodNotAllowed "Method not allowed".toList 405
  else
    match r.Body with
    | none => reject .bodyMissing "Request body is missing".toList 400
    | some (.error _) => reject .readFailed "Failed to read request body".toList 500
    | some (.ok contentBytes) =>
      let content := contentBytes
      match lib.Unmarshal (firstLine content) with
      | .error err => reject .invalidHeader ("Invalid JSON header: ".toList ++ err) 400
      | .ok header =>
        match lib.Parse header.DSN with
        | .error _ => reject .invalidDSN "Invalid DSN format".toList 400
        | .ok dsn =>
          if dsn.Host = [] then reject .invalidDSN "Invalid DSN format".toList 400
          else
            if projectID dsn = [] then reject .emptyProject "Invalid DSN format".toList 400
            else if sentryHost.length > 0 ∧ dsn.Host ≠ sentryHost then
              reject .invalidHost ("Invalid Sentry hostname: ".toList ++ dsn.Hostname) 400
            else if sentryProjectIDs.length > 0 ∧
                ¬ (Split sentryProjectIDs ',').contains (projectID dsn) then
              reject .invalidProject ("Invalid Sentry project ID: ".toList ++ projectID dsn) 400
            else
              match NewRequest lib MethodPost (upstreamSentryURL dsn) contentBytes with
              | .error _ => reject .createFailed "Failed to create upstream request".toList 500
              | .ok req =>
                match lib.Do req with
                | .error err =>
                  { exit := .tunnelFailed
                    response := Error "Error tunneling to Sentry".toList 500
                    outbound := [req]
                    log := ["Error tunneling to Sentry: ".toList ++ err] }
                | .ok resp =>
                  if checkWriteHeaderCode resp.StatusCode then
                    { exit := .writeHeaderPanic
                      response := nothingWritten
                      outbound := [req]
                      log := closeLog resp }
                  else
                    { exit := .proxied
                      response := { StatusCode := resp.StatusCode, Body := resp.Body }
                      outbound := [req]
                      log := copyLog resp }

/-! ## The comparison of the tests -/

/-- The body as `testBody` (main_test.go, lines 42-44) compares it: without
its trailing carriage returns and line feeds. -/
def trimmedBody (data : Str) : Str :=
  TrimRightFunc data (fun c => c == '\r' || c == '\n')

/-! ## The checks of the handler, one by one

Each check is stated on its own, as the specification lists them; a check
whose input does not exist (no content, no header, no parsed locator) does not
fail. -/

/-- The content of the body, when the body is present and could be read. -/
def content? (r : Request) : Option Str :=
  match r.Body with
  | some (.ok c) => some c
  | _ => none

/-- The routing header, when the first line of the content decodes. -/
def header? (lib : Lib) (r : Request) : Option SentryHeader :=
  match content? r with
  | some c =>
    match lib.Unmarshal (firstLine c) with
    | .ok h => some h
    | .error _ => none
  | none => none

/-- The parsed destination locator, when the header's `dsn` parses. -/
def dsn? (lib : Lib) (r : Request) : Option URL :=
  match header? lib r with
  | some h =>
    match lib.Parse h.DSN with
    | .ok u => some u
    | .error _ => none
  | none => none

/-- The checks of the handler. -/
inductive Check where
  | method
  | bodyPresent
  | bodyRead
  | headerJSON
  | dsnParse
  | projectNonEmpty
  | hostAllowed
  | projectAllowed
  | construct
deriving DecidableEq, Repr

/-- Whether a check fails on a request. -/
def Check.fails (lib : Lib) (env : Env) (r : Request) : Check → Bool
  | .method => decide (r.Method ≠ MethodPost)
  | .bodyPresent => r.Body.isNone
  | .bodyRead =>
    match r.Body with
    | some (.error _) => true
    | _ => false
  | .headerJSON =>
    match content? r with
    | some c =>
      match lib.Unmarshal (firstLine c) with
      | .error _ => true
      | .ok _ => false
    | none => false
  | .dsnParse =>
    match header? lib r with
    | some h =>
      match lib.Parse h.DSN with
      | .error _ => true
      | .ok u => decide (u.Host = [])
    | none => false
  | .projectNonEmpty =>
    match dsn? lib r with
    | some u => decide (projectID u = [])
    | none => false
  | .hostAllowed =>
    match dsn? lib r with
    | some u => decide (env.SENTRY_HOST ≠ [] ∧ u.Host ≠ env.SENTRY_HOST)
    | none => false
  | .projectAllowed =>
    match dsn? lib r with
    | some u =>
      decide (env.SENTRY_PROJECT_IDS ≠ [] ∧
        ∀ x ∈ Split env.SENTRY_PROJECT_IDS ',', projectID u ≠ x)
    | none => false
  | .construct =>
    match dsn? lib r, content? r with
    | some u, some c =>
      match NewRequest lib MethodPost (upstreamSentryURL u) c with
      | .error _ => true
      | .ok _ => false
    | _, _ => false

/-- The rejection that belongs to a check: the response the specification
gives for its failure. -/
def Check.rejection (lib : Lib) (r : Request) : Check → Response
  | .method => Error "Method not allowed".toList 405
  | .bodyPresent => Error "Request body is missing".toList 400
  | .bodyRead => Error "Failed to read request body".toList 500
  | .headerJSON =>
    match content? r with
    | some c =>
      match lib.Unmarshal (firstLine c) with
      | .error e => Error ("Invalid JSON header: ".toList ++ e) 400
      | .ok _ => Error "Invalid JSON header: ".toList 400
    | none => Error "Invalid JSON header: ".toList 400
  | .dsnParse => Error "Invalid DSN format".toList 400
  | .projectNonEmpty => Error "Invalid DSN format".toList 400
  | .hostAllowed =>
    match dsn? lib r with
    | some u => Error ("Invalid Sentry hostname: ".toList ++ u.Hostname) 400
    | none => Error "Invalid Sentry hostname: ".toList 400
  | .projectAllowed =>
    match dsn? lib r with
    | some u => Error ("Invalid Sentry project ID: ".toList ++ projectID u) 400
    | none => Error "Invalid Sentry project ID: ".toList 400
  | .construct => Error "Failed to create upstream request".toList 500

/-- The `return` of the handler that belongs to a check. -/
def Check.exit : Check → Exit
  | .method => .methodNotAllowed
  | .bodyPresent => .bodyMissing
  | .bodyRead => .readFailed
  | .headerJSON => .invalidHeader
  | .dsnParse => .invalidDSN
  | .projectNonEmpty => .emptyProject
  | .hostAllowed => .invalidHost
  | .projectAllowed => .invalidProject
  | .construct => .createFailed

/-- The order of the checks as the specification gives it. -/
def specOrder : List Check :=
  [.method, .bodyPresent, .headerJSON, .dsnParse, .projectNonEmpty, .hostAllowed, .projectAllowed]

/-- The order of the checks in the code: the specification's, with the read of
the body (line 37) and the construction of the outbound request (line 76). -/
def codeOrder : List Check :=
  [.method, .bodyPresent, .bodyRead, .headerJSON, .dsnParse, .projectNonEmpty, .hostAllowed,
    .projectAllowed, .construct]

/-- The first check of an order that fails on a request. -/
def firstFailing (lib : Lib) (env : Env) (r : Request) (order : List Check) : Option Check :=
  order.find? (fun c => c.fails lib env r)

/-- A request passes validation with content `content` and parsed locator
`dsn`: none of the specification's seven checks fails. -/
structure Validated (lib : Lib) (env : Env) (r : Request) (content : Str) (dsn : URL) :
    Prop where
  method : r.Method = MethodPost
  body : r.Body = some (.ok content)
  header : ∃ h, lib.Unmarshal (firstLine content) = .ok h ∧ lib.Parse h.DSN = .ok dsn
  host : dsn.Host ≠ []
  project : projectID dsn ≠ []
  hostAllowed : env.SENTRY_HOST = [] ∨ dsn.Host = env.SENTRY_HOST
  projectAllowed :
    env.SENTRY_PROJECT_IDS = [] ∨ projectID dsn ∈ Split env.SENTRY_PROJECT_IDS ','

/-! ## The tail of the handler, named for the proofs -/

/-- The handler from line 73 on, once every check has passed: the outbound
request is created, sent, and its answer copied to the caller, unless
`w.WriteHeader` panics over the status code. -/
def forward (lib : Lib) (contentBytes : Str) (dsn : URL) : Outcome :=
  match NewRequest lib MethodPost (upstreamSentryURL dsn) contentBytes with
  | .error _ => reject .createFailed "Failed to create upstream request".toList 500
  | .ok req =>
    match lib.Do req with
    | .error err =>
      { exit := .tunnelFailed
        response := Error "Error tunneling to Sentry".toList 500
        outbound := [req]
        log := ["Error tunneling to Sentry: ".toList ++ err] }
    | .ok resp =>
      if checkWriteHeaderCode resp.StatusCode then
        { exit := .writeHeaderPanic
          response := nothingWritten
          outbound := [req]
          log := closeLog resp }
      else
        { exit := .proxied
          response := { StatusCode := resp.StatusCode, Body := resp.Body }
          outbound := [req]
          log := copyLog resp }

/-- The handler from line 52 on, once the locator has parsed. -/
def afterParse (lib : Lib) (env : Env) (contentBytes : Str) (dsn : URL) : Outcome :=
  if dsn.Host = [] then reject .invalidDSN "Invalid DSN format".toList 400
  else if projectID dsn = [] then reject .emptyProject "Invalid DSN format".toList 400
  else if env.SENTRY_HOST ≠ [] ∧ dsn.Host ≠ env.SENTRY_HOST then
    reject .invalidHost ("Invalid Sentry hostname: ".toList ++ dsn.Hostname) 400
  else if env.SENTRY_PROJECT_IDS ≠ [] ∧
      ¬ (Split env.SENTRY_PROJECT_IDS ',').contains (projectID dsn) then
    reject .invalidProject ("Invalid Sentry project ID: ".toList ++ projectID dsn) 400
  else forward lib contentBytes dsn

/-! ## Recorded behaviour of Go's library on sample inputs -/

/-- Results of `json.Unmarshal` into a `SentryHeader` on the first lines used
in the examples of this file. -/
def recordedUnmarshal : List (Str × Except Str SentryHeader) :=
  [ ("".toList, .error "unexpected end of JSON input".toList),
    ("\x7b\x7d".toList, .ok ⟨[]⟩),
    ("\x7b\"dsn\":\"https://example.com\"\x7d".toList, .ok ⟨"https://example.com".toList⟩),
    ("\x7b\"dsn\":\"https://example.net/4\"\x7d".toList, .ok ⟨"https://example.net/4".toList⟩),
    ("\x7b\"dsn\":\"https://example.net/5\"\x7d".toList, .ok ⟨"https://example.net/5".toList⟩),
    ("\x7b\"dsn\":\"https://example.net:8080/4\"\x7d".toList,
      .ok ⟨"https://example.net:8080/4".toList⟩),
    ("\x7b\"dsn\":\"https://example.net/5%0A\"\x7d".toList,
      .ok ⟨"https://example.net/5%0A".toList⟩),
    ("\x7b\"dsn\":\"http://127.0.0.1:8080/17\"\x7d".toList,
      .ok ⟨"http://127.0.0.1:8080/17".toList⟩) ]

/-- Results of `url.Parse` on the URLs used in the examples of this file. -/
def recordedParse : List (Str × Except Str URL) :=
  [ ("".toList, .ok ⟨[], [], []⟩),
    ("https://example.com".toList, .ok ⟨"https".toList, "example.com".toList, []⟩),
    ("https://example.net/4".toList, .ok ⟨"https".toList, "example.net".toList, "/4".toList⟩),
    ("https://example.net/5".toList, .ok ⟨"https".toList, "example.net".toList, "/5".toList⟩),
    ("https://example.net:8080/4".toList,
      .ok ⟨"https".toList, "example.net:8080".toList, "/4".toList⟩),
    ("https://example.net/5%0A".toList,
      .ok ⟨"https".toList, "example.net".toList, "/5\n".toList⟩),
    ("http://127.0.0.1:8080/17".toList,
      .ok ⟨"http".toList, "127.0.0.1:8080".toList, "/17".toList⟩),
    ("https://example.net/api/4/envelope/".toList,
      .ok ⟨"https".toList, "example.net".toList, "/api/4/envelope/".toList⟩),
    ("https://example.net/api/5/envelope/".toList,
      .ok ⟨"https".toList, "example.net".toList, "/api/5/envelope/".toList⟩),
    ("http://127.0.0.1:8080/api/17/envelope/".toList,
      .ok ⟨"http".toList, "127.0.0.1:8080".toList, "/api/17/envelope/".toList⟩),
    ("https://example.net/api/5\n/envelope/".toList,
      .error "net/url: invalid control character in URL".toList) ]

/-- A library that answers as Go's does on the recorded inputs, with the
given behaviour of the upstream; an input that is not recorded is reported as
such. -/
def recordedLib (upstream : OutRequest → Except Str UpstreamResponse) : Lib :=
  { Unmarshal := fun s => (recordedUnmarshal.lookup s).getD (.error "not recorded".toList)
    Parse := fun s => (recordedParse.lookup s).getD (.error "not recorded".toList)
    Do := upstream }

/-- An upstream that answers every request with 200 and the body `OK`. -/
def upstreamOK : OutRequest → Except Str UpstreamResponse :=
  fun _ => .ok ⟨200, "OK".toList, none, none⟩

/-- A POST request whose body delivers the given text. -/
def post (body : String) : Request :=
  { Method := MethodPost, Body := some (.ok body.toList) }

/-! ## Lemmas on the string helpers -/

theorem Split_ne_nil (s : Str) (sep : Char) : Split s sep ≠ [] := by
  induction s with
  | nil => simp [Split]
  | cons c cs ih =>
    unfold Split
    split
    · simp
    · split <;> simp

/-- Element 0 of the split is the text before the first separator. -/
theorem Split_headD (s : Str) (sep : Char) :
    (Split s sep).headD [] = s.takeWhile (fun x => x != sep) := by
  induction s with
  | nil => simp [Split]
  | cons c cs ih =>
    unfold Split
    by_cases h : c = sep
    · simp [h]
    · simp only [h, if_false]
      cases hs : Split cs sep with
      | nil => exact absurd hs (Split_ne_nil cs sep)
      | cons l ls =>
        rw [hs] at ih
        simp at ih
        simp [List.takeWhile_cons, h, ih]

/-- Joining the pieces of a split with the separator gives the string back,
and no piece holds the separator. -/
theorem Split_spec (s : Str) (sep : Char) :
    [sep].intercalate (Split s sep) = s ∧ ∀ p ∈ Split s sep, sep ∉ p := by
  induction s with
  | nil => simp [Split, List.intercalate]
  | cons c cs ih =>
    obtain ⟨ih1, ih2⟩ := ih
    unfold Split
    cases hs : Split cs sep with
    | nil => exact absurd hs (Split_ne_nil cs sep)
    | cons l ls =>
      rw [hs] at ih1 ih2
      by_cases h : c = sep
      · subst h
        simp only [if_true]
        constructor
        · have : [c].intercalate ([] :: l :: ls) = c :: [c].intercalate (l :: ls) := by
            simp [List.intercalate, List.intersperse]
          rw [this, ih1]
        · intro p hp
          rcases List.mem_cons.mp hp with hp | hp
          · simp [hp]
          · exact ih2 p hp
      · simp only [h, if_false]
        constructor
        · have : [sep].intercalate ((c :: l) :: ls) = c :: [sep].intercalate (l :: ls) := by
            cases ls <;> simp [List.intercalate, List.intersperse]
          rw [this, ih1]
        · intro p hp
          rcases List.mem_cons.mp hp with hp | hp
          · subst hp
            have hl : sep ∉ l := ih2 l (by simp)
            intro hmem
            rcases List.mem_cons.mp hmem with e | e
            · exact h e.symm
            · exact hl e
          · exact ih2 p (by simp [hp])

theorem firstLine_eq_takeWhile (content : Str) :
    firstLine content = content.takeWhile (fun x => x != '\n') :=
  Split_headD content '\n'


/-- Trimming trailing line breaks undoes the line feed `http.Error` appends,
when the message itself does not end in a line break. -/
theorem trimmedBody_append_lf (m : Str)
    (h : ∀ c, m.getLast? = some c → c ≠ '\r' ∧ c ≠ '\n') :
    trimmedBody (m ++ ['\n']) = m := by
  unfold trimmedBody TrimRightFunc
  rw [List.reverse_append]
  simp only [List.reverse_cons, List.reverse_nil, List.nil_append, List.singleton_append]
  rw [List.dropWhile_cons]
  simp only [beq_self_eq_true, Bool.or_true, if_true]
  cases hm : m.reverse with
  | nil => simp [List.reverse_eq_nil_iff.mp hm]
  | cons x xs =>
    have hlast : m.getLast? = some x := by
      rw [List.getLast?_eq_head?_reverse, hm]; rfl
    obtain ⟨h1, h2⟩ := h x hlast
    have hx : (x == '\r' || x == '\n') = false := by simp [h1, h2]
    rw [List.dropWhile_cons, hx]
    simp only [Bool.false_eq_true, if_false]
    rw [← hm, List.reverse_reverse]

theorem LastIndexByte_of_not_mem (s : Str) (c : Char) (h : c ∉ s) :
    LastIndexByte s c = none := by
  induction s with
  | nil => rfl
  | cons x xs ih =>
    have hx : ¬ x = c := fun e => h (by simp [e])
    have hxs : c ∉ xs := fun e => h (by simp [e])
    simp [LastIndexByte, ih hxs, hx]

/-- A host without a colon and without an opening bracket is its own
hostname. -/
theorem Hostname_of_plain (u : URL) (hcolon : ':' ∉ u.Host) (hbracket : '[' ∉ u.Host) :
    u.Hostname = u.Host := by
  have hpre : HasPrefix u.Host '[' = false := by
    unfold HasPrefix
    cases hh : u.Host with
    | nil => rfl
    | cons x xs =>
      have : ¬ x = '[' := fun e => hbracket (by simp [hh, e])
      simp [this]
  simp [URL.Hostname, splitHostPort, LastIndexByte_of_not_mem _ _ hcolon, hpre]

theorem LastIndexByte_append (h p : Str) (c : Char) (hp : c ∉ p) :
    LastIndexByte (h ++ c :: p) c = some h.length := by
  induction h with
  | nil => simp [LastIndexByte, LastIndexByte_of_not_mem p c hp]
  | cons x xs ih => simp [LastIndexByte, ih]

/-- A host that ends in a colon and a decimal port has the text before the
colon as its hostname (when that text is not a bracketed literal). -/
theorem Hostname_of_port (u : URL) (h p : Str) (hu : u.Host = h ++ ':' :: p)
    (hdigits : ∀ b ∈ p, '0' ≤ b ∧ b ≤ '9') (hbracket : h.head? ≠ some '[') :
    u.Hostname = h := by
  have hcolon : ':' ∉ p := by
    intro hm
    have := hdigits ':' hm
    exact absurd this.2 (by decide)
  have hvalid : validOptionalPort (':' :: p) = true := by
    simp only [validOptionalPort, beq_self_eq_true, Bool.true_and, List.all_eq_true,
      Bool.and_eq_true, decide_eq_true_eq]
    exact hdigits
  have hpre : HasPrefix h '[' = false := by
    unfold HasPrefix
    cases hh : h with
    | nil => rfl
    | cons x xs =>
      have : ¬ x = '[' := fun e => hbracket (by simp [hh, e])
      simp [this]
  simp [URL.Hostname, hu, splitHostPort, LastIndexByte_append h p ':' hcolon, hvalid, hpre]

/-- Dropping the leading occurrences of a byte removes a run of that byte and
leaves a string that does not start with it. -/
theorem dropWhile_eq_spec (l : Str) (c : Char) :
    (∃ a, l = List.replicate a c ++ l.dropWhile (fun x => x == c)) ∧
    (l.dropWhile (fun x => x == c)).head? ≠ some c := by
  induction l with
  | nil => exact ⟨⟨0, rfl⟩, by simp⟩
  | cons x xs ih =>
    by_cases hx : x = c
    · subst hx
      obtain ⟨⟨a, ha⟩, hh⟩ := ih
      refine ⟨⟨a + 1, ?_⟩, ?_⟩
      · rw [List.dropWhile_cons]
        simp only [beq_self_eq_true, if_true, List.replicate_succ, List.cons_append]
        rw [← ha]
      · rw [List.dropWhile_cons]
        simpa using hh
    · have hb : (x == c) = false := by simp [hx]
      refine ⟨⟨0, ?_⟩, ?_⟩
      · rw [List.dropWhile_cons, hb]
        simp
      · rw [List.dropWhile_cons, hb]
        simp [hx]

/-- What `Trim` removes and what it leaves: the string is the trimmed string
between a run of the byte in front and a run of it behind, and the trimmed
string neither starts nor ends with the byte. -/
theorem Trim_spec (s : Str) (c : Char) :
    (∃ a b, s = List.replicate a c ++ Trim s c ++ List.replicate b c) ∧
    (Trim s c).head? ≠ some c ∧ (Trim s c).getLast? ≠ some c := by
  obtain ⟨⟨b, hb⟩, hlast⟩ := dropWhile_eq_spec s.reverse c
  have hs : s = TrimRight s c ++ List.replicate b c := by
    have := congrArg List.reverse hb
    rw [List.reverse_reverse, List.reverse_append, List.reverse_replicate] at this
    exact this
  have hright : (TrimRight s c).getLast? ≠ some c := by
    unfold TrimRight
    rw [List.getLast?_reverse]
    exact hlast
  obtain ⟨⟨a, ha⟩, hhead⟩ := dropWhile_eq_spec (TrimRight s c) c
  have htrim : Trim s c = (TrimRight s c).dropWhile (fun x => x == c) := rfl
  rw [← htrim] at ha hhead
  refine ⟨⟨a, b, ?_⟩, hhead, ?_⟩
  · rw [← ha]
    exact hs
  · cases ht : Trim s c with
    | nil => simp
    | cons y ys =>
      have hne : Trim s c ≠ [] := by simp [ht]
      rw [← ht]
      intro hl
      apply hright
      rw [ha, List.getLast?_append_of_ne_nil _ hne]
      exact hl

/-- A message that ends in a text without a trailing line break does not end
in a line break. -/
theorem getLast_message (pre tail : Str) (x : Char) (hx : pre.getLast? = some x)
    (hxr : x ≠ '\r') (hxn : x ≠ '\n')
    (h : ∀ c, tail.getLast? = some c → c ≠ '\r' ∧ c ≠ '\n') :
    ∀ c, (pre ++ tail).getLast? = some c → c ≠ '\r' ∧ c ≠ '\n' := by
  intro c hc
  cases ht : tail with
  | nil =>
    rw [ht, List.append_nil, hx] at hc
    cases hc
    exact ⟨hxr, hxn⟩
  | cons y ys =>
    have hne : tail ≠ [] := by simp [ht]
    rw [List.getLast?_append_of_ne_nil _ hne] at hc
    exact h c hc

/-! ## The handler, stage by stage -/

theorem handleRequest_body_missing (lib : Lib) (env : Env) (r : Request)
    (hm : r.Method = MethodPost) (hb : r.Body = none) :
    handleRequest lib env r = reject Exit.bodyMissing "Request body is missing".toList 400 := by
  simp [handleRequest, hm, hb]

theorem handleRequest_read_failed (lib : Lib) (env : Env) (r : Request) (e : Str)
    (hm : r.Method = MethodPost) (hb : r.Body = some (.error e)) :
    handleRequest lib env r =
      reject Exit.readFailed "Failed to read request body".toList 500 := by
  simp [handleRequest, hm, hb]

theorem handleRequest_header_error (lib : Lib) (env : Env) (r : Request) (content err : Str)
    (hm : r.Method = MethodPost) (hb : r.Body = some (.ok content))
    (hu : lib.Unmarshal (firstLine content) = .error err) :
    handleRequest lib env r =
      reject Exit.invalidHeader ("Invalid JSON header: ".toList ++ err) 400 := by
  simp [handleRequest, hm, hb, hu]

theorem handleRequest_parse_error (lib : Lib) (env : Env) (r : Request) (content e : Str)
    (header : SentryHeader)
    (hm : r.Method = MethodPost) (hb : r.Body = some (.ok content))
    (hu : lib.Unmarshal (firstLine content) = .ok header)
    (hp : lib.Parse header.DSN = .error e) :
    handleRequest lib env r = reject Exit.invalidDSN "Invalid DSN format".toList 400 := by
  simp [handleRequest, hm, hb, hu, hp]

theorem handleRequest_parsed (lib : Lib) (env : Env) (r : Request) (content : Str)
    (header : SentryHeader) (dsn : URL)
    (hm : r.Method = MethodPost) (hb : r.Body = some (.ok content))
    (hu : lib.Unmarshal (firstLine content) = .ok header)
    (hp : lib.Parse header.DSN = .ok dsn) :
    handleRequest lib env r = afterParse lib env content dsn := by
  simp only [handleRequest, hm, hb, hu, hp, afterParse, forward, ne_eq, not_true_eq_false,
    if_false, gt_iff_lt, List.length_pos]

theorem firstLine_nil : firstLine [] = [] := rfl

/-- The ways `forward` ends. -/
theorem forward_cases (lib : Lib) (content : Str) (dsn : URL) :
    ((∃ e, lib.Parse (upstreamSentryURL dsn) = .error e) ∧
      forward lib content dsn =
        reject Exit.createFailed "Failed to create upstream request".toList 500) ∨
    ((∃ v, lib.Parse (upstreamSentryURL dsn) = .ok v) ∧
      ∃ err, lib.Do ⟨MethodPost, upstreamSentryURL dsn, content⟩ = .error err ∧
        forward lib content dsn =
          { exit := Exit.tunnelFailed
            response := Error "Error tunneling to Sentry".toList 500
            outbound := [⟨MethodPost, upstreamSentryURL dsn, content⟩]
            log := ["Error tunneling to Sentry: ".toList ++ err] }) ∨
    ((∃ v, lib.Parse (upstreamSentryURL dsn) = .ok v) ∧
      ∃ resp, lib.Do ⟨MethodPost, upstreamSentryURL dsn, content⟩ = .ok resp ∧
        forward lib content dsn =
          if checkWriteHeaderCode resp.StatusCode then
            { exit := Exit.writeHeaderPanic
              response := nothingWritten
              outbound := [⟨MethodPost, upstreamSentryURL dsn, content⟩]
              log := closeLog resp }
          else
            { exit := Exit.proxied
              response := { StatusCode := resp.StatusCode, Body := resp.Body }
              outbound := [⟨MethodPost, upstreamSentryURL dsn, content⟩]
              log := copyLog resp }) := by
  unfold forward NewRequest
  cases hp : lib.Parse (upstreamSentryURL dsn) with
  | error e => left; exact ⟨⟨e, rfl⟩, rfl⟩
  | ok v =>
    right
    cases hd : lib.Do ⟨MethodPost, upstreamSentryURL dsn, content⟩ with
    | error err =>
      left
      refine ⟨⟨v, rfl⟩, err, rfl, ?_⟩
      simp only [hd]
    | ok resp =>
      right
      refine ⟨⟨v, rfl⟩, resp, rfl, ?_⟩
      simp only [hd]

/-- The ends that `forward` can take. -/
theorem forward_exit (lib : Lib) (content : Str) (dsn : URL) :
    (forward lib content dsn).exit = Exit.createFailed ∨
    (forward lib content dsn).exit = Exit.tunnelFailed ∨
    (forward lib content dsn).exit = Exit.proxied ∨
    (forward lib content dsn).exit = Exit.writeHeaderPanic := by
  rcases forward_cases lib content dsn with ⟨_, h⟩ | ⟨_, _, _, h⟩ | ⟨_, _, _, h⟩
  · rw [h]; simp [reject]
  · rw [h]; simp
  · rw [h]; split_ifs <;> simp

/-- Whatever the answer of the upstream, a call that reached `client.Do` made
exactly that outbound request. -/
theorem forward_outbound (lib : Lib) (content : Str) (dsn : URL)
    (h : ∃ v, lib.Parse (upstreamSentryURL dsn) = .ok v) :
    (forward lib content dsn).outbound = [⟨MethodPost, upstreamSentryURL dsn, content⟩] := by
  rcases forward_cases lib content dsn with ⟨⟨e, he⟩, _⟩ | ⟨_, _, _, h2⟩ | ⟨_, _, _, h2⟩
  · obtain ⟨v, hv⟩ := h
    rw [hv] at he
    cases he
  · rw [h2]
  · rw [h2]; split_ifs <;> rfl

/-- The handler from line 63 on, for a locator with a host and a project. -/
theorem afterParse_of_nonempty (lib : Lib) (env : Env) (content : Str) (dsn : URL)
    (hhost : dsn.Host ≠ []) (hproj : projectID dsn ≠ []) :
    afterParse lib env content dsn =
      if env.SENTRY_HOST ≠ [] ∧ dsn.Host ≠ env.SENTRY_HOST then
        reject .invalidHost ("Invalid Sentry hostname: ".toList ++ dsn.Hostname) 400
      else if env.SENTRY_PROJECT_IDS ≠ [] ∧
          ¬ (Split env.SENTRY_PROJECT_IDS ',').contains (projectID dsn) then
        reject .invalidProject ("Invalid Sentry project ID: ".toList ++ projectID dsn) 400
      else forward lib content dsn := by
  unfold afterParse
  rw [if_neg hhost, if_neg hproj]

/-- The returns that `afterParse` cannot take. -/
theorem afterParse_exit (lib : Lib) (env : Env) (content : Str) (dsn : URL) :
    (afterParse lib env content dsn).exit ≠ Exit.methodNotAllowed ∧
    (afterParse lib env content dsn).exit ≠ Exit.bodyMissing ∧
    (afterParse lib env content dsn).exit ≠ Exit.readFailed ∧
    (afterParse lib env content dsn).exit ≠ Exit.invalidHeader := by
  unfold afterParse
  split_ifs
  · simp [reject]
  · simp [reject]
  · simp [reject]
  · simp [reject]
  · rcases forward_exit lib content dsn with h | h | h | h <;> rw [h] <;> simp

/-- A request that passes validation reaches the outbound call. -/
theorem handleRequest_validated (lib : Lib) (env : Env) (r : Request) (content : Str)
    (dsn : URL) (hv : Validated lib env r content dsn) :
    handleRequest lib env r = forward lib content dsn := by
  obtain ⟨header, hu, hp⟩ := hv.header
  rw [handleRequest_parsed lib env r content header dsn hv.method hv.body hu hp,
    afterParse_of_nonempty lib env content dsn hv.host hv.project]
  have h1 : ¬ (env.SENTRY_HOST ≠ [] ∧ dsn.Host ≠ env.SENTRY_HOST) := by
    rintro ⟨h1, h2⟩
    rcases hv.hostAllowed with h | h
    · exact h1 h
    · exact h2 h
  have h2 : ¬ (env.SENTRY_PROJECT_IDS ≠ [] ∧
      ¬ (Split env.SENTRY_PROJECT_IDS ',').contains (projectID dsn)) := by
    rintro ⟨h1, h2⟩
    rcases hv.projectAllowed with h | h
    · exact h1 h
    · apply h2
      simpa using h
  rw [if_neg h1, if_neg h2]

/-! ## The claims -/

/-- C5: a request whose method is not POST, whatever its body and whatever
SENTRY_HOST and SENTRY_PROJECT_IDS are, is answered 405 with the body
`Method not allowed` (as the tests compare it) and no outbound call is made;
so a request with a wrong method and no body gets the wrong-method error and
not the missing-body error. -/
theorem C5_method_not_allowed (lib : Lib) (env : Env) (r : Request)
    (hm : r.Method ≠ MethodPost) :
    (handleRequest lib env r).exit = Exit.methodNotAllowed ∧
    (handleRequest lib env r).response.StatusCode = 405 ∧
    trimmedBody (handleRequest lib env r).response.Body = "Method not allowed".toList ∧
    (handleRequest lib env r).outbound = [] ∧
    (handleRequest lib env r).response ≠ Error "Request body is missing".toList 400 := by
  have h : handleRequest lib env r =
      reject Exit.methodNotAllowed "Method not allowed".toList 405 := by
    simp [handleRequest, hm]
  rw [h]
  refine ⟨rfl, rfl, by decide, rfl, by decide⟩

theorem C5_method_not_allowed_witness :
    (handleRequest (recordedLib upstreamOK) ⟨"example.com".toList, "3,6,8".toList⟩
        ⟨"GET".toList, none⟩).exit = Exit.methodNotAllowed ∧
    (handleRequest (recordedLib upstreamOK) ⟨"example.com".toList, "3,6,8".toList⟩
        ⟨"GET".toList, none⟩).response.StatusCode = 405 ∧
    trimmedBody (handleRequest (recordedLib upstreamOK) ⟨"example.com".toList, "3,6,8".toList⟩
        ⟨"GET".toList, none⟩).response.Body = "Method not allowed".toList ∧
    (handleRequest (recordedLib upstreamOK) ⟨"example.com".toList, "3,6,8".toList⟩
        ⟨"GET".toList, none⟩).outbound = [] ∧
    (handleRequest (recordedLib upstreamOK) ⟨"example.com".toList, "3,6,8".toList⟩
        ⟨"GET".toList, none⟩).response ≠ Error "Request body is missing".toList 400 :=
  C5_method_not_allowed (recordedLib upstreamOK) ⟨"example.com".toList, "3,6,8".toList⟩
    ⟨"GET".toList, none⟩ (by decide)

/-- C8: a POST request whose body is absent, whatever SENTRY_HOST and
SENTRY_PROJECT_IDS are, is answered 400 with the body `Request body is missing`
(as the tests compare it) and no outbound call is made; a body that is present
but empty is not rejected by this check: it reaches header parsing, whose
verdict on the empty line decides the answer. -/
theorem C8_body_missing (lib : Lib) (env : Env) (r : Request)
    (hm : r.Method = MethodPost) :
    (r.Body = none →
      (handleRequest lib env r).exit = Exit.bodyMissing ∧
      (handleRequest lib env r).response.StatusCode = 400 ∧
      trimmedBody (handleRequest lib env r).response.Body = "Request body is missing".toList ∧
      (handleRequest lib env r).outbound = []) ∧
    (r.Body = some (.ok []) →
      (handleRequest lib env r).exit ≠ Exit.bodyMissing ∧
      (∀ err, lib.Unmarshal [] = .error err →
        handleRequest lib env r =
          reject Exit.invalidHeader ("Invalid JSON header: ".toList ++ err) 400) ∧
      ((handleRequest lib env r).exit = Exit.invalidHeader ↔
        ∃ err, lib.Unmarshal [] = .error err)) := by
  constructor
  · intro hb
    rw [handleRequest_body_missing lib env r hm hb]
    exact ⟨rfl, rfl, by decide, rfl⟩
  · intro hb
    cases hu : lib.Unmarshal [] with
    | error err =>
      have h := handleRequest_header_error lib env r [] err hm hb hu
      rw [h]
      refine ⟨by simp [reject], ?_, ?_⟩
      · intro e he
        cases he
        rfl
      · simp [reject]
    | ok header =>
      cases hp : lib.Parse header.DSN with
      | error e =>
        rw [handleRequest_parse_error lib env r [] e header hm hb hu hp]
        simp [reject]
      | ok dsn =>
        rw [handleRequest_parsed lib env r [] header dsn hm hb hu hp]
        have h := afterParse_exit lib env [] dsn
        refine ⟨h.2.1, ?_, ?_⟩
        · intro e he
          cases he
        · simp [h.2.2.2]

theorem C8_body_missing_witness :
    ((handleRequest (recordedLib upstreamOK) ⟨[], []⟩ ⟨MethodPost, none⟩).exit =
        Exit.bodyMissing ∧
      (handleRequest (recordedLib upstreamOK) ⟨[], []⟩ ⟨MethodPost, none⟩).response.StatusCode =
        400 ∧
      trimmedBody (handleRequest (recordedLib upstreamOK) ⟨[], []⟩
        ⟨MethodPost, none⟩).response.Body = "Request body is missing".toList ∧
      (handleRequest (recordedLib upstreamOK) ⟨[], []⟩ ⟨MethodPost, none⟩).outbound = []) ∧
    (handleRequest (recordedLib upstreamOK) ⟨[], []⟩ (post "")).exit ≠ Exit.bodyMissing :=
  ⟨(C8_body_missing (recordedLib upstreamOK) ⟨[], []⟩ ⟨MethodPost, none⟩ rfl).1 rfl,
    ((C8_body_missing (recordedLib upstreamOK) ⟨[], []⟩ (post "") rfl).2 rfl).1⟩

/-- C7: for a POST request whose body is present, the header is decoded from
the first line only, the body up to but not including its first line feed; when
that line does not decode, the answer is 400, its body `Invalid JSON header: `
followed by the decoder's error message (and the line feed `http.Error`
appends), and no outbound call is made; no other request with a body is answered
so.  For an empty body, on which Go's decoder reports
`unexpected end of JSON input`, the body as the tests compare it is exactly
`Invalid JSON header: unexpected end of JSON input`. -/
theorem C7_header_parse (lib : Lib) (env : Env) (r : Request) (content : Str)
    (hm : r.Method = MethodPost) (hb : r.Body = some (.ok content)) :
    firstLine content = content.takeWhile (fun c => c != '\n') ∧
    (∀ err, lib.Unmarshal (content.takeWhile (fun c => c != '\n')) = .error err →
      (handleRequest lib env r).exit = Exit.invalidHeader ∧
      (handleRequest lib env r).response.StatusCode = 400 ∧
      (handleRequest lib env r).response.Body =
        "Invalid JSON header: ".toList ++ err ++ ['\n'] ∧
      (handleRequest lib env r).outbound = []) ∧
    ((handleRequest lib env r).exit = Exit.invalidHeader ↔
      ∃ err, lib.Unmarshal (content.takeWhile (fun c => c != '\n')) = .error err) ∧
    (content = [] → lib.Unmarshal [] = .error "unexpected end of JSON input".toList →
      (handleRequest lib env r).response.StatusCode = 400 ∧
      trimmedBody (handleRequest lib env r).response.Body =
        "Invalid JSON header: unexpected end of JSON input".toList) := by
  have hline := firstLine_eq_takeWhile content
  rw [← hline]
  refine ⟨rfl, ?_, ?_, ?_⟩
  · intro err hu
    rw [handleRequest_header_error lib env r content err hm hb hu]
    exact ⟨rfl, rfl, rfl, rfl⟩
  · cases hu : lib.Unmarshal (firstLine content) with
    | error err =>
      rw [handleRequest_header_error lib env r content err hm hb hu]
      simp [reject]
    | ok header =>
      cases hp : lib.Parse header.DSN with
      | error e =>
        rw [handleRequest_parse_error lib env r content e header hm hb hu hp]
        simp [reject]
      | ok dsn =>
        rw [handleRequest_parsed lib env r content header dsn hm hb hu hp]
        simp [(afterParse_exit lib env content dsn).2.2.2]
  · intro hc hu
    subst hc
    rw [handleRequest_header_error lib env r [] _ hm hb hu]
    exact ⟨rfl, by decide⟩

theorem C7_header_parse_witness :
    (handleRequest (recordedLib upstreamOK) ⟨[], []⟩ (post "")).exit = Exit.invalidHeader ∧
    (handleRequest (recordedLib upstreamOK) ⟨[], []⟩ (post "")).response.StatusCode = 400 ∧
    trimmedBody (handleRequest (recordedLib upstreamOK) ⟨[], []⟩ (post "")).response.Body =
      "Invalid JSON header: unexpected end of JSON input".toList ∧
    (handleRequest (recordedLib upstreamOK) ⟨[], []⟩ (post "")).outbound = [] :=
  have h := C7_header_parse (recordedLib upstreamOK) ⟨[], []⟩ (post "") [] rfl rfl
  ⟨(h.2.1 _ rfl).1, (h.2.2.2 rfl rfl).1, (h.2.2.2 rfl rfl).2, (h.2.1 _ rfl).2.2.2⟩


/-- C6: for a POST request whose first body line decodes as a header, when the
`dsn` is missing or empty (on which `url.Parse` gives a locator without host),
fails URL parsing, parses to an empty host, or parses to a path that is empty
once its leading and trailing slashes are trimmed, the answer is 400 with the
body `Invalid DSN format` (as the tests compare it), whatever SENTRY_HOST and
SENTRY_PROJECT_IDS are, and no outbound call is made. -/
theorem C6_invalid_dsn (lib : Lib) (env : Env) (r : Request) (content : Str)
    (header : SentryHeader)
    (hm : r.Method = MethodPost) (hb : r.Body = some (.ok content))
    (hu : lib.Unmarshal (firstLine content) = .ok header)
    (hbad : (header.DSN = [] ∧ ∃ u, lib.Parse [] = .ok u ∧ u.Host = []) ∨
      (∃ e, lib.Parse header.DSN = .error e) ∨
      (∃ u, lib.Parse header.DSN = .ok u ∧ u.Host = []) ∨
      (∃ u, lib.Parse header.DSN = .ok u ∧ Trim u.Path '/' = [])) :
    (handleRequest lib env r).response.StatusCode = 400 ∧
    trimmedBody (handleRequest lib env r).response.Body = "Invalid DSN format".toList ∧
    (handleRequest lib env r).outbound = [] ∧
    ((handleRequest lib env r).exit = Exit.invalidDSN ∨
      (handleRequest lib env r).exit = Exit.emptyProject) := by
  have key : handleRequest lib env r = reject Exit.invalidDSN "Invalid DSN format".toList 400 ∨
      handleRequest lib env r = reject Exit.emptyProject "Invalid DSN format".toList 400 := by
    rcases hbad with ⟨hd, u, hp, hh⟩ | ⟨e, hp⟩ | ⟨u, hp, hh⟩ | ⟨u, hp, ht⟩
    · rw [← hd] at hp
      rw [handleRequest_parsed lib env r content header u hm hb hu hp]
      left
      simp [afterParse, hh]
    · left
      exact handleRequest_parse_error lib env r content e header hm hb hu hp
    · rw [handleRequest_parsed lib env r content header u hm hb hu hp]
      left
      simp [afterParse, hh]
    · rw [handleRequest_parsed lib env r content header u hm hb hu hp]
      unfold afterParse
      by_cases hh : u.Host = []
      · left
        simp [hh]
      · right
        have hproj : projectID u = [] := ht
        simp [hh, hproj]
  rcases key with h | h <;> rw [h]
  · exact ⟨rfl, by decide, rfl, Or.inl rfl⟩
  · exact ⟨rfl, by decide, rfl, Or.inr rfl⟩

theorem C6_invalid_dsn_witness :
    (handleRequest (recordedLib upstreamOK) ⟨"example.com".toList, "3,6,8".toList⟩
      (post "\x7b\"dsn\":\"https://example.com\"\x7d")).response.StatusCode = 400 ∧
    trimmedBody (handleRequest (recordedLib upstreamOK) ⟨"example.com".toList, "3,6,8".toList⟩
      (post "\x7b\"dsn\":\"https://example.com\"\x7d")).response.Body =
        "Invalid DSN format".toList ∧
    (handleRequest (recordedLib upstreamOK) ⟨"example.com".toList, "3,6,8".toList⟩
      (post "\x7b\"dsn\":\"https://example.com\"\x7d")).outbound = [] ∧
    ((handleRequest (recordedLib upstreamOK) ⟨"example.com".toList, "3,6,8".toList⟩
      (post "\x7b\"dsn\":\"https://example.com\"\x7d")).exit = Exit.invalidDSN ∨
    (handleRequest (recordedLib upstreamOK) ⟨"example.com".toList, "3,6,8".toList⟩
      (post "\x7b\"dsn\":\"https://example.com\"\x7d")).exit = Exit.emptyProject) :=
  C6_invalid_dsn (recordedLib upstreamOK) ⟨"example.com".toList, "3,6,8".toList⟩
    (post "\x7b\"dsn\":\"https://example.com\"\x7d")
    "\x7b\"dsn\":\"https://example.com\"\x7d".toList ⟨"https://example.com".toList⟩ rfl rfl
    rfl
    (Or.inr (Or.inr (Or.inr ⟨⟨"https".toList, "example.com".toList, []⟩, rfl, by decide⟩)))


/-- C1 as stated fails: with SENTRY_HOST `example.net`, the locator
`https://example.net:8080/4` parses to the host `example.net:8080`, which is
compared with SENTRY_HOST and differs from it; the request is rejected by the
host check, and the body names `example.net`, not the host that was compared. -/
theorem C1_counterexample :
    (recordedLib upstreamOK).Parse "https://example.net:8080/4".toList =
      .ok ⟨"https".toList, "example.net:8080".toList, "/4".toList⟩ ∧
    (handleRequest (recordedLib upstreamOK) ⟨"example.net".toList, []⟩
      (post "\x7b\"dsn\":\"https://example.net:8080/4\"\x7d")).exit = Exit.invalidHost ∧
    trimmedBody (handleRequest (recordedLib upstreamOK) ⟨"example.net".toList, []⟩
      (post "\x7b\"dsn\":\"https://example.net:8080/4\"\x7d")).response.Body =
        "Invalid Sentry hostname: example.net".toList ∧
    trimmedBody (handleRequest (recordedLib upstreamOK) ⟨"example.net".toList, []⟩
      (post "\x7b\"dsn\":\"https://example.net:8080/4\"\x7d")).response.Body ≠
        "Invalid Sentry hostname: example.net:8080".toList :=
  ⟨rfl, by decide, by decide, by decide⟩

/-- C1, amended: for a POST request with a present body whose first line
decodes as a header and whose `dsn` parses to a non-empty host and a non-empty
project id, the request is rejected by the host check exactly when SENTRY_HOST
is non-empty and the parsed host differs from it; the answer is then 400, its
body `Invalid Sentry hostname: <hostname>` followed by a line feed (so, as the
tests compare it, that message, the hostname not ending in a line break), where
<hostname> is `dsn.Hostname()`: the parsed host without its port and without the
brackets of an IPv6 literal, which is the compared host itself when that holds
no colon and no bracket, and the text before the colon when the host ends in a
colon and a decimal port; and no outbound request is made. -/
theorem C1_host_allow_list (lib : Lib) (env : Env) (r : Request) (content : Str)
    (header : SentryHeader) (dsn : URL)
    (hm : r.Method = MethodPost) (hb : r.Body = some (.ok content))
    (hu : lib.Unmarshal (firstLine content) = .ok header)
    (hp : lib.Parse header.DSN = .ok dsn)
    (hhost : dsn.Host ≠ []) (hproj : Trim dsn.Path '/' ≠ []) :
    ((handleRequest lib env r).exit = Exit.invalidHost ↔
      env.SENTRY_HOST ≠ [] ∧ dsn.Host ≠ env.SENTRY_HOST) ∧
    ((handleRequest lib env r).exit = Exit.invalidHost →
      (handleRequest lib env r).response.StatusCode = 400 ∧
      (handleRequest lib env r).response.Body =
        "Invalid Sentry hostname: ".toList ++ dsn.Hostname ++ ['\n'] ∧
      ((∀ c, dsn.Hostname.getLast? = some c → c ≠ '\r' ∧ c ≠ '\n') →
        trimmedBody (handleRequest lib env r).response.Body =
          "Invalid Sentry hostname: ".toList ++ dsn.Hostname) ∧
      (handleRequest lib env r).outbound = []) ∧
    (':' ∉ dsn.Host → '[' ∉ dsn.Host → dsn.Hostname = dsn.Host) ∧
    (∀ h p, dsn.Host = h ++ ':' :: p → (∀ b ∈ p, '0' ≤ b ∧ b ≤ '9') → h.head? ≠ some '[' →
      dsn.Hostname = h) := by
  rw [handleRequest_parsed lib env r content header dsn hm hb hu hp,
    afterParse_of_nonempty lib env content dsn hhost hproj]
  refine ⟨?_, ?_, Hostname_of_plain dsn, Hostname_of_port dsn⟩
  · by_cases hc : env.SENTRY_HOST ≠ [] ∧ dsn.Host ≠ env.SENTRY_HOST
    · rw [if_pos hc]
      simp only [reject, true_iff]
      exact hc
    · rw [if_neg hc]
      simp only [hc, iff_false]
      split_ifs
      · simp [reject]
      · rcases forward_exit lib content dsn with h | h | h | h <;> rw [h] <;> simp
  · by_cases hc : env.SENTRY_HOST ≠ [] ∧ dsn.Host ≠ env.SENTRY_HOST
    · rw [if_pos hc]
      intro _
      refine ⟨rfl, rfl, ?_, rfl⟩
      intro hlast
      exact trimmedBody_append_lf _
        (getLast_message _ _ ' ' (by decide) (by decide) (by decide) hlast)
    · rw [if_neg hc]
      intro he
      exfalso
      revert he
      split_ifs
      · simp [reject]
      · rcases forward_exit lib content dsn with h | h | h | h <;> rw [h] <;> simp

theorem C1_host_allow_list_witness :
    (handleRequest (recordedLib upstreamOK) ⟨"https://example.com".toList, []⟩
      (post "\x7b\"dsn\":\"https://example.net/4\"\x7d")).exit = Exit.invalidHost ∧
    (handleRequest (recordedLib upstreamOK) ⟨"https://example.com".toList, []⟩
      (post "\x7b\"dsn\":\"https://example.net/4\"\x7d")).response.StatusCode = 400 ∧
    trimmedBody (handleRequest (recordedLib upstreamOK) ⟨"https://example.com".toList, []⟩
      (post "\x7b\"dsn\":\"https://example.net/4\"\x7d")).response.Body =
        "Invalid Sentry hostname: example.net".toList ∧
    (handleRequest (recordedLib upstreamOK) ⟨"https://example.com".toList, []⟩
      (post "\x7b\"dsn\":\"https://example.net/4\"\x7d")).outbound = [] :=
  have h := C1_host_allow_list (recordedLib upstreamOK) ⟨"https://example.com".toList, []⟩
    (post "\x7b\"dsn\":\"https://example.net/4\"\x7d")
    "\x7b\"dsn\":\"https://example.net/4\"\x7d".toList ⟨"https://example.net/4".toList⟩
    ⟨"https".toList, "example.net".toList, "/4".toList⟩ rfl rfl rfl rfl (by decide) (by decide)
  have he := h.1.mpr ⟨by decide, by decide⟩
  ⟨he, (h.2.1 he).1, (h.2.1 he).2.2.1 (by decide), (h.2.1 he).2.2.2⟩

/-- C2: for a POST request that passes the header, DSN-format and host checks,
the request is rejected by the project check exactly when SENTRY_PROJECT_IDS is
non-empty and the parsed project id, the DSN path with its leading and trailing
slashes trimmed, equals no element of SENTRY_PROJECT_IDS split on commas; the
answer is then 400 with the body `Invalid Sentry project ID: <id>` (followed by
the line feed `http.Error` appends; as the tests compare it, that message
itself, the id not ending in a line break), <id> being that project id, and no
outbound request is made. -/
theorem C2_project_allow_list (lib : Lib) (env : Env) (r : Request) (content : Str)
    (header : SentryHeader) (dsn : URL)
    (hm : r.Method = MethodPost) (hb : r.Body = some (.ok content))
    (hu : lib.Unmarshal (firstLine content) = .ok header)
    (hp : lib.Parse header.DSN = .ok dsn)
    (hhost : dsn.Host ≠ []) (hproj : Trim dsn.Path '/' ≠ [])
    (hpass : env.SENTRY_HOST = [] ∨ dsn.Host = env.SENTRY_HOST) :
    ((handleRequest lib env r).exit = Exit.invalidProject ↔
      env.SENTRY_PROJECT_IDS ≠ [] ∧
        ∀ x ∈ Split env.SENTRY_PROJECT_IDS ',', Trim dsn.Path '/' ≠ x) ∧
    ((handleRequest lib env r).exit = Exit.invalidProject →
      (handleRequest lib env r).response.StatusCode = 400 ∧
      (handleRequest lib env r).response.Body =
        "Invalid Sentry project ID: ".toList ++ Trim dsn.Path '/' ++ ['\n'] ∧
      ((∀ c, (Trim dsn.Path '/').getLast? = some c → c ≠ '\r' ∧ c ≠ '\n') →
        trimmedBody (handleRequest lib env r).response.Body =
          "Invalid Sentry project ID: ".toList ++ Trim dsn.Path '/') ∧
      (handleRequest lib env r).outbound = []) ∧
    ((∃ a b, dsn.Path =
        List.replicate a '/' ++ Trim dsn.Path '/' ++ List.replicate b '/') ∧
      (Trim dsn.Path '/').head? ≠ some '/' ∧ (Trim dsn.Path '/').getLast? ≠ some '/') ∧
    ([','].intercalate (Split env.SENTRY_PROJECT_IDS ',') = env.SENTRY_PROJECT_IDS ∧
      ∀ p ∈ Split env.SENTRY_PROJECT_IDS ',', ',' ∉ p) := by
  have hhostc : ¬ (env.SENTRY_HOST ≠ [] ∧ dsn.Host ≠ env.SENTRY_HOST) := by
    rintro ⟨h1, h2⟩
    rcases hpass with h | h
    · exact h1 h
    · exact h2 h
  have hmem : (¬ (Split env.SENTRY_PROJECT_IDS ',').contains (projectID dsn)) ↔
      ∀ x ∈ Split env.SENTRY_PROJECT_IDS ',', Trim dsn.Path '/' ≠ x := by
    have hcm : ∀ (l : List Str) (a : Str), l.contains a = true ↔ a ∈ l := by
      intro l a
      simp
    rw [hcm]
    unfold projectID
    constructor
    · intro h x hx e
      exact h (e ▸ hx)
    · intro h hx
      exact h _ hx rfl
  rw [handleRequest_parsed lib env r content header dsn hm hb hu hp,
    afterParse_of_nonempty lib env content dsn hhost hproj, if_neg hhostc]
  refine ⟨?_, ?_, Trim_spec dsn.Path '/', Split_spec env.SENTRY_PROJECT_IDS ','⟩
  · by_cases hc : env.SENTRY_PROJECT_IDS ≠ [] ∧
        ¬ (Split env.SENTRY_PROJECT_IDS ',').contains (projectID dsn)
    · rw [if_pos hc]
      simp only [reject, true_iff]
      exact ⟨hc.1, hmem.mp hc.2⟩
    · rw [if_neg hc]
      have hn : ¬ (env.SENTRY_PROJECT_IDS ≠ [] ∧
          ∀ x ∈ Split env.SENTRY_PROJECT_IDS ',', Trim dsn.Path '/' ≠ x) :=
        fun h => hc ⟨h.1, hmem.mpr h.2⟩
      simp only [hn, iff_false]
      rcases forward_exit lib content dsn with h | h | h | h <;> rw [h] <;> simp
  · by_cases hc : env.SENTRY_PROJECT_IDS ≠ [] ∧
        ¬ (Split env.SENTRY_PROJECT_IDS ',').contains (projectID dsn)
    · rw [if_pos hc]
      intro _
      refine ⟨rfl, rfl, ?_, rfl⟩
      intro hlast
      exact trimmedBody_append_lf _
        (getLast_message _ _ ' ' (by decide) (by decide) (by decide) hlast)
    · rw [if_neg hc]
      intro he
      exfalso
      rcases forward_exit lib content dsn with h | h | h | h <;> rw [h] at he <;> simp at he

theorem C2_project_allow_list_witness :
    (handleRequest (recordedLib upstreamOK) ⟨[], "3,6,8".toList⟩
      (post "\x7b\"dsn\":\"https://example.net/5\"\x7d")).exit = Exit.invalidProject ∧
    (handleRequest (recordedLib upstreamOK) ⟨[], "3,6,8".toList⟩
      (post "\x7b\"dsn\":\"https://example.net/5\"\x7d")).response.StatusCode = 400 ∧
    (handleRequest (recordedLib upstreamOK) ⟨[], "3,6,8".toList⟩
      (post "\x7b\"dsn\":\"https://example.net/5\"\x7d")).response.Body =
        "Invalid Sentry project ID: 5\n".toList ∧
    (handleRequest (recordedLib upstreamOK) ⟨[], "3,6,8".toList⟩
      (post "\x7b\"dsn\":\"https://example.net/5\"\x7d")).outbound = [] :=
  have h := C2_project_allow_list (recordedLib upstreamOK) ⟨[], "3,6,8".toList⟩
    (post "\x7b\"dsn\":\"https://example.net/5\"\x7d")
    "\x7b\"dsn\":\"https://example.net/5\"\x7d".toList ⟨"https://example.net/5".toList⟩
    ⟨"https".toList, "example.net".toList, "/5".toList⟩ rfl rfl rfl rfl (by decide) (by decide)
    (Or.inl rfl)
  have he := h.1.mpr ⟨by decide, by decide⟩
  ⟨he, (h.2.1 he).1, (h.2.1 he).2.1, (h.2.1 he).2.2.2⟩


/-- C3 as stated fails: with no allow-list configured, the locator
`https://example.net/5%0A` passes every validation check (its path parses to
`/5` followed by a line feed, so the project id is not empty), but
`http.NewRequest` rejects the upstream URL built from it, which holds a control
character: no outbound request is issued and the answer is 500. -/
theorem C3_counterexample :
    Validated (recordedLib upstreamOK) ⟨[], []⟩
      (post "\x7b\"dsn\":\"https://example.net/5%0A\"\x7d\nLOREMLIPSUM")
      "\x7b\"dsn\":\"https://example.net/5%0A\"\x7d\nLOREMLIPSUM".toList
      ⟨"https".toList, "example.net".toList, "/5\n".toList⟩ ∧
    firstFailing (recordedLib upstreamOK) ⟨[], []⟩
      (post "\x7b\"dsn\":\"https://example.net/5%0A\"\x7d\nLOREMLIPSUM") specOrder = none ∧
    (handleRequest (recordedLib upstreamOK) ⟨[], []⟩
      (post "\x7b\"dsn\":\"https://example.net/5%0A\"\x7d\nLOREMLIPSUM")).outbound = [] ∧
    (handleRequest (recordedLib upstreamOK) ⟨[], []⟩
      (post "\x7b\"dsn\":\"https://example.net/5%0A\"\x7d\nLOREMLIPSUM")).response =
        Error "Failed to create upstream request".toList 500 :=
  ⟨⟨rfl, rfl, ⟨⟨"https://example.net/5%0A".toList⟩, rfl, rfl⟩, by decide, by decide,
      Or.inl rfl, Or.inl rfl⟩,
    by decide, by decide, by decide⟩

/-- C3, amended: for an inbound request that passes all validation checks and
whose outbound request `http.NewRequest` can construct (it parses the upstream
URL), handleRequest issues exactly one outbound request, with method POST, to
the URL `{scheme}://{host}/api/{projectID}/envelope/` built from the parsed
DSN's scheme, host and slash-trimmed path, and its payload is the entire
inbound body, header line included; when the request cannot be constructed,
none is issued and the answer is 500 `Failed to create upstream request`. -/
theorem C3_outbound_request (lib : Lib) (env : Env) (r : Request) (content : Str)
    (dsn : URL) (hv : Validated lib env r content dsn) :
    ((∃ req, NewRequest lib "POST".toList
        (dsn.Scheme ++ "://".toList ++ dsn.Host ++ "/api/".toList ++ Trim dsn.Path '/' ++
          "/envelope/".toList) content = .ok req) →
      (handleRequest lib env r).outbound =
        [{ Method := "POST".toList
           URL := dsn.Scheme ++ "://".toList ++ dsn.Host ++ "/api/".toList ++
             Trim dsn.Path '/' ++ "/envelope/".toList
           Body := content }] ∧
      r.Body = some (.ok content)) ∧
    ((∃ e, NewRequest lib "POST".toList
        (dsn.Scheme ++ "://".toList ++ dsn.Host ++ "/api/".toList ++ Trim dsn.Path '/' ++
          "/envelope/".toList) content = .error e) →
      (handleRequest lib env r).outbound = [] ∧
      (handleRequest lib env r).response =
        Error "Failed to create upstream request".toList 500) := by
  rw [handleRequest_validated lib env r content dsn hv]
  have hurl : dsn.Scheme ++ "://".toList ++ dsn.Host ++ "/api/".toList ++ Trim dsn.Path '/' ++
      "/envelope/".toList = upstreamSentryURL dsn := rfl
  have hpost : "POST".toList = MethodPost := rfl
  rw [hurl, hpost]
  constructor
  · rintro ⟨req, hreq⟩
    refine ⟨?_, hv.body⟩
    unfold NewRequest at hreq
    rcases forward_cases lib content dsn with ⟨⟨e, he⟩, _⟩ | ⟨_, _, _, h⟩ | ⟨_, _, _, h⟩
    · rw [he] at hreq
      cases hreq
    · rw [h]
    · rw [h]
      split_ifs <;> rfl
  · rintro ⟨e, he⟩
    unfold NewRequest at he
    rcases forward_cases lib content dsn with ⟨_, h⟩ | ⟨⟨v, hv2⟩, _⟩ | ⟨⟨v, hv2⟩, _⟩
    · rw [h]
      exact ⟨rfl, rfl⟩
    · rw [hv2] at he
      cases he
    · rw [hv2] at he
      cases he

theorem C3_outbound_request_witness :
    (handleRequest (recordedLib upstreamOK) ⟨[], []⟩
      (post "\x7b\"dsn\":\"http://127.0.0.1:8080/17\"\x7d\nLOREMLIPSUM")).outbound =
      [{ Method := "POST".toList
         URL := "http://127.0.0.1:8080/api/17/envelope/".toList
         Body := "\x7b\"dsn\":\"http://127.0.0.1:8080/17\"\x7d\nLOREMLIPSUM".toList }] :=
  ((C3_outbound_request (recordedLib upstreamOK) ⟨[], []⟩
    (post "\x7b\"dsn\":\"http://127.0.0.1:8080/17\"\x7d\nLOREMLIPSUM")
    "\x7b\"dsn\":\"http://127.0.0.1:8080/17\"\x7d\nLOREMLIPSUM".toList
    ⟨"http".toList, "127.0.0.1:8080".toList, "/17".toList⟩
    ⟨rfl, rfl, ⟨⟨"http://127.0.0.1:8080/17".toList⟩, rfl, rfl⟩, by decide, by decide,
      Or.inl rfl, Or.inl rfl⟩).1 ⟨_, rfl⟩).1

/-- C10: for a validated request whose outbound call fails at the transport
level, the answer is 500 with the fixed body `Error tunneling to Sentry`
(followed by the line feed `http.Error` appends); it is the same answer for any
two transport errors, so it neither depends on nor contains the error's detail,
which goes to the log only. -/
theorem C10_transport_failure (lib lib2 : Lib) (env : Env) (r : Request) (content : Str)
    (dsn : URL) (hv : Validated lib env r content dsn)
    (hU : lib2.Unmarshal = lib.Unmarshal) (hP : lib2.Parse = lib.Parse)
    (req : OutRequest)
    (hnew : NewRequest lib MethodPost (upstreamSentryURL dsn) content = .ok req)
    (err err2 : Str) (hdo : lib.Do req = .error err) (hdo2 : lib2.Do req = .error err2) :
    (handleRequest lib env r).response.StatusCode = 500 ∧
    (handleRequest lib env r).response.Body = "Error tunneling to Sentry\n".toList ∧
    trimmedBody (handleRequest lib env r).response.Body = "Error tunneling to Sentry".toList ∧
    (handleRequest lib2 env r).response = (handleRequest lib env r).response ∧
    (handleRequest lib env r).log = ["Error tunneling to Sentry: ".toList ++ err] ∧
    (handleRequest lib2 env r).log = ["Error tunneling to Sentry: ".toList ++ err2] := by
  have hv2 : Validated lib2 env r content dsn := by
    obtain ⟨h, a, b⟩ := hv.header
    exact ⟨hv.method, hv.body, ⟨h, by rw [hU]; exact a, by rw [hP]; exact b⟩, hv.host,
      hv.project, hv.hostAllowed, hv.projectAllowed⟩
  have hnew2 : NewRequest lib2 MethodPost (upstreamSentryURL dsn) content = .ok req := by
    unfold NewRequest at hnew ⊢
    rw [hP]
    exact hnew
  have h1 : handleRequest lib env r =
      { exit := Exit.tunnelFailed
        response := Error "Error tunneling to Sentry".toList 500
        outbound := [req]
        log := ["Error tunneling to Sentry: ".toList ++ err] } := by
    rw [handleRequest_validated lib env r content dsn hv]
    unfold forward
    rw [hnew]
    simp only [hdo]
  have h2 : handleRequest lib2 env r =
      { exit := Exit.tunnelFailed
        response := Error "Error tunneling to Sentry".toList 500
        outbound := [req]
        log := ["Error tunneling to Sentry: ".toList ++ err2] } := by
    rw [handleRequest_validated lib2 env r content dsn hv2]
    unfold forward
    rw [hnew2]
    simp only [hdo2]
  rw [h1, h2]
  have ht : trimmedBody (Error "Error tunneling to Sentry".toList 500).Body =
      "Error tunneling to Sentry".toList := by decide
  exact ⟨rfl, rfl, ht, rfl, rfl, rfl⟩

theorem C10_transport_failure_witness :
    (handleRequest (recordedLib (fun _ => .error "dial tcp: connection refused".toList))
      ⟨[], []⟩
      (post "\x7b\"dsn\":\"http://127.0.0.1:8080/17\"\x7d\nLOREMLIPSUM")).response =
        Error "Error tunneling to Sentry".toList 500 ∧
    (handleRequest (recordedLib (fun _ => .error "context deadline exceeded".toList))
      ⟨[], []⟩
      (post "\x7b\"dsn\":\"http://127.0.0.1:8080/17\"\x7d\nLOREMLIPSUM")).response =
    (handleRequest (recordedLib (fun _ => .error "dial tcp: connection refused".toList))
      ⟨[], []⟩
      (post "\x7b\"dsn\":\"http://127.0.0.1:8080/17\"\x7d\nLOREMLIPSUM")).response :=
  have h := C10_transport_failure
    (recordedLib (fun _ => .error "dial tcp: connection refused".toList))
    (recordedLib (fun _ => .error "context deadline exceeded".toList)) ⟨[], []⟩
    (post "\x7b\"dsn\":\"http://127.0.0.1:8080/17\"\x7d\nLOREMLIPSUM")
    "\x7b\"dsn\":\"http://127.0.0.1:8080/17\"\x7d\nLOREMLIPSUM".toList
    ⟨"http".toList, "127.0.0.1:8080".toList, "/17".toList⟩
    ⟨rfl, rfl, ⟨⟨"http://127.0.0.1:8080/17".toList⟩, rfl, rfl⟩, by decide, by decide,
      Or.inl rfl, Or.inl rfl⟩
    rfl rfl _ rfl "dial tcp: connection refused".toList "context deadline exceeded".toList
    rfl rfl
  ⟨by decide, h.2.2.2.1⟩

/-- C9 as stated fails: a POST request whose body is present but cannot be
read fails none of the seven checks of the specification's order, and yet no
outbound call is made; the answer, 500 `Failed to read request body`, is the
rejection of none of them. -/
theorem C9_counterexample :
    firstFailing (recordedLib upstreamOK) ⟨[], []⟩
      ⟨MethodPost, some (.error "unexpected EOF".toList)⟩ specOrder = none ∧
    (handleRequest (recordedLib upstreamOK) ⟨[], []⟩
      ⟨MethodPost, some (.error "unexpected EOF".toList)⟩).outbound = [] ∧
    (handleRequest (recordedLib upstreamOK) ⟨[], []⟩
      ⟨MethodPost, some (.error "unexpected EOF".toList)⟩).response =
        Error "Failed to read request body".toList 500 ∧
    (∀ c ∈ specOrder,
      (handleRequest (recordedLib upstreamOK) ⟨[], []⟩
        ⟨MethodPost, some (.error "unexpected EOF".toList)⟩).response ≠
      Check.rejection (recordedLib upstreamOK)
        ⟨MethodPost, some (.error "unexpected EOF".toList)⟩ c) :=
  ⟨by decide, by decide, by decide, by decide⟩

/-- C9, amended: for every request and every configuration, the answer of
handleRequest is the rejection that belongs to the first check that fails in
the order method, body presence, read of the body, header JSON parse,
destination parse / empty host, empty project id, host allow-list, project
allow-list, construction of the outbound request; no later check influences
the answer, and the outbound call is made if and only if none of these checks
fails. -/
theorem C9_precedence (lib : Lib) (env : Env) (r : Request) :
    (∀ c, firstFailing lib env r codeOrder = some c →
      (handleRequest lib env r).response = c.rejection lib r ∧
      (handleRequest lib env r).exit = c.exit ∧
      (handleRequest lib env r).outbound = []) ∧
    ((handleRequest lib env r).outbound ≠ [] ↔ firstFailing lib env r codeOrder = none) := by
  by_cases hm : r.Method = MethodPost
  swap
  · have ft : Check.fails lib env r Check.method = true := by
      simp [Check.fails, hm]
    have hf : firstFailing lib env r codeOrder = some Check.method := by
      simp [firstFailing, codeOrder, ft]
    have hh : handleRequest lib env r =
        reject Exit.methodNotAllowed "Method not allowed".toList 405 := by
      simp [handleRequest, hm]
    rw [hf, hh]
    simp [Check.rejection, Check.exit, reject]
  have f1 : Check.fails lib env r Check.method = false := by simp [Check.fails, hm]
  cases hb : r.Body with
  | none =>
    have ft : Check.fails lib env r Check.bodyPresent = true := by
      simp [Check.fails, hb]
    have hf : firstFailing lib env r codeOrder = some Check.bodyPresent := by
      simp [firstFailing, codeOrder, f1, ft]
    rw [hf, handleRequest_body_missing lib env r hm hb]
    simp [Check.rejection, Check.exit, reject]
  | some body =>
    have f2 : Check.fails lib env r Check.bodyPresent = false := by simp [Check.fails, hb]
    cases body with
    | error e =>
      have ft : Check.fails lib env r Check.bodyRead = true := by
        simp [Check.fails, hb]
      have hf : firstFailing lib env r codeOrder = some Check.bodyRead := by
        simp [firstFailing, codeOrder, f1, f2, ft]
      rw [hf, handleRequest_read_failed lib env r e hm hb]
      simp [Check.rejection, Check.exit, reject]
    | ok content =>
      have f3 : Check.fails lib env r Check.bodyRead = false := by simp [Check.fails, hb]
      have hc : content? r = some content := by simp [content?, hb]
      cases hu : lib.Unmarshal (firstLine content) with
      | error err =>
        have ft : Check.fails lib env r Check.headerJSON = true := by
          simp [Check.fails, hc, hu]
        have hf : firstFailing lib env r codeOrder = some Check.headerJSON := by
          simp [firstFailing, codeOrder, f1, f2, f3, ft]
        rw [hf, handleRequest_header_error lib env r content err hm hb hu]
        simp [Check.rejection, Check.exit, reject, hc, hu]
      | ok header =>
        have f4 : Check.fails lib env r Check.headerJSON = false := by
          simp [Check.fails, hc, hu]
        have hh : header? lib r = some header := by simp [header?, hc, hu]
        cases hp : lib.Parse header.DSN with
        | error e =>
          have ft : Check.fails lib env r Check.dsnParse = true := by
            simp [Check.fails, hh, hp]
          have hf : firstFailing lib env r codeOrder = some Check.dsnParse := by
            simp [firstFailing, codeOrder, f1, f2, f3, f4, ft]
          rw [hf, handleRequest_parse_error lib env r content e header hm hb hu hp]
          simp [Check.rejection, Check.exit, reject]
        | ok dsn =>
          have hd : dsn? lib r = some dsn := by simp [dsn?, hh, hp]
          rw [handleRequest_parsed lib env r content header dsn hm hb hu hp]
          unfold afterParse
          by_cases hhost : dsn.Host = []
          · have ft : Check.fails lib env r Check.dsnParse = true := by
              simp [Check.fails, hh, hp, hhost]
            have hf : firstFailing lib env r codeOrder = some Check.dsnParse := by
              simp [firstFailing, codeOrder, f1, f2, f3, f4, ft]
            rw [hf, if_pos hhost]
            simp [Check.rejection, Check.exit, reject]
          have f5 : Check.fails lib env r Check.dsnParse = false := by
            simp [Check.fails, hh, hp, hhost]
          rw [if_neg hhost]
          by_cases hproj : projectID dsn = []
          · have ft : Check.fails lib env r Check.projectNonEmpty = true := by
              simp [Check.fails, hd, hproj]
            have hf : firstFailing lib env r codeOrder = some Check.projectNonEmpty := by
              simp [firstFailing, codeOrder, f1, f2, f3, f4, f5, ft]
            rw [hf, if_pos hproj]
            simp [Check.rejection, Check.exit, reject]
          have f6 : Check.fails lib env r Check.projectNonEmpty = false := by
            simp [Check.fails, hd, hproj]
          rw [if_neg hproj]
          by_cases hha : env.SENTRY_HOST ≠ [] ∧ dsn.Host ≠ env.SENTRY_HOST
          · have f7 : Check.fails lib env r Check.hostAllowed = true := by
              simp only [Check.fails, hd]
              exact decide_eq_true hha
            have hf : firstFailing lib env r codeOrder = some Check.hostAllowed := by
              simp [firstFailing, codeOrder, f1, f2, f3, f4, f5, f6, f7]
            rw [hf, if_pos hha]
            simp [Check.rejection, Check.exit, reject, hd]
          have f7 : Check.fails lib env r Check.hostAllowed = false := by
            simp only [Check.fails, hd]
            exact decide_eq_false hha
          rw [if_neg hha]
          by_cases hpa : env.SENTRY_PROJECT_IDS ≠ [] ∧
              ¬ (Split env.SENTRY_PROJECT_IDS ',').contains (projectID dsn)
          · have hpa2 : env.SENTRY_PROJECT_IDS ≠ [] ∧
                ∀ x ∈ Split env.SENTRY_PROJECT_IDS ',', projectID dsn ≠ x := by
              refine ⟨hpa.1, fun x hx e => hpa.2 ?_⟩
              rw [e]
              simpa using hx
            have f8 : Check.fails lib env r Check.projectAllowed = true := by
              simp only [Check.fails, hd]
              exact decide_eq_true hpa2
            have hf : firstFailing lib env r codeOrder = some Check.projectAllowed := by
              simp [firstFailing, codeOrder, f1, f2, f3, f4, f5, f6, f7, f8]
            rw [hf, if_pos hpa]
            simp [Check.rejection, Check.exit, reject, hd]
          rw [if_neg hpa]
          have hpa2 : ¬ (env.SENTRY_PROJECT_IDS ≠ [] ∧
              ∀ x ∈ Split env.SENTRY_PROJECT_IDS ',', projectID dsn ≠ x) := by
            rintro ⟨h1, h2⟩
            apply hpa
            refine ⟨h1, fun hx => ?_⟩
            have hx2 : projectID dsn ∈ Split env.SENTRY_PROJECT_IDS ',' := by simpa using hx
            exact h2 _ hx2 rfl
          have f8 : Check.fails lib env r Check.projectAllowed = false := by
            simp only [Check.fails, hd]
            exact decide_eq_false hpa2
          rcases forward_cases lib content dsn with
            ⟨⟨e, he⟩, h⟩ | ⟨⟨v, hv2⟩, err, _, h⟩ | ⟨⟨v, hv2⟩, resp, _, h⟩
          · have f9 : Check.fails lib env r Check.construct = true := by
              simp [Check.fails, hd, hc, NewRequest, he]
            have hf : firstFailing lib env r codeOrder = some Check.construct := by
              simp [firstFailing, codeOrder, f1, f2, f3, f4, f5, f6, f7, f8, f9]
            rw [hf, h]
            simp [Check.rejection, Check.exit, reject]
          · have f9 : Check.fails lib env r Check.construct = false := by
              simp [Check.fails, hd, hc, NewRequest, hv2]
            have hf : firstFailing lib env r codeOrder = none := by
              simp [firstFailing, codeOrder, f1, f2, f3, f4, f5, f6, f7, f8, f9]
            rw [hf, h]
            simp
          · have f9 : Check.fails lib env r Check.construct = false := by
              simp [Check.fails, hd, hc, NewRequest, hv2]
            have hf : firstFailing lib env r codeOrder = none := by
              simp [firstFailing, codeOrder, f1, f2, f3, f4, f5, f6, f7, f8, f9]
            rw [hf, h]
            split_ifs <;> simp

end SentryTunnel
